import Mathlib

/-!
# A shallow embedding of `src/contracts/OrderBookDEX.sol`

The contract is embedded as a pure state-transition system.  Solidity
`uint256` values are modelled as `Nat`; additions and the multiplications
whose operands placement already bounds are idealized (their overflow
needs operands near `2 ^ 256`), while the checked operations that can
genuinely fail on reachable values — subtraction (Solidity 0.8 underflow
panic), division (division-by-zero panic), and the market-walk cost
multiplication, whose price operand can be as large as `2 ^ 256 - 1`
(overflow panic) — are modelled by `csub`, `cdiv` and `cmul`,
which return an `Except` error mirroring the EVM revert.  External ERC20
`transfer` / `transferFrom` calls are collaborators outside the engine and
are modelled as always succeeding; only the contract's own ledger
(`balances`) is tracked.  A revert is modelled by `Except.error`: no
partial state escapes a failing call, exactly as on the EVM.

Addresses are `Nat` (with `0` the zero address).  Solidity mappings are
total functions returning the zero-initialized default record, exactly as
storage mappings do.
-/

namespace OrderBookDEX

abbrev Address := Nat

/-- The value `type(uint256).max`, the sentinel used by `_tryMatchOrders` for
"no sell candidate found". -/
def UMAX : Nat := 2 ^ 256 - 1

/-- Constant `TRADING_FEE = 30` of the contract. -/
def TRADING_FEE : Nat := 30

/-- Constant `FEE_DENOMINATOR = 10000` of the contract. -/
def FEE_DENOMINATOR : Nat := 10000

/-- The `Order` struct of the contract. -/
structure Order where
  id : Nat
  trader : Address
  baseToken : Address
  quoteToken : Address
  amount : Nat
  price : Nat
  isBuy : Bool
  isActive : Bool
  timestamp : Nat
  deriving Repr, DecidableEq

/-- The zero-initialized order record a Solidity mapping returns for an
id that was never assigned. -/
def emptyOrder : Order :=
  { id := 0, trader := 0, baseToken := 0, quoteToken := 0, amount := 0,
    price := 0, isBuy := false, isActive := false, timestamp := 0 }

/-- The `TradingPair` struct of the contract. -/
structure TradingPair where
  baseToken : Address
  quoteToken : Address
  isActive : Bool
  minOrderSize : Nat
  pricePrecision : Nat
  deriving Repr, DecidableEq

/-- The zero-initialized pair record for an unconfigured pair. -/
def emptyPair : TradingPair :=
  { baseToken := 0, quoteToken := 0, isActive := false, minOrderSize := 0,
    pricePrecision := 0 }

/-- The contract's storage. -/
structure DexState where
  orderIdCounter : Nat
  orders : Nat → Order
  tradingPairs : Address → Address → TradingPair
  userOrders : Address → List Nat
  balances : Address → Address → Nat
  owner : Address

/-- The typed failures of the engine (`require` messages and arithmetic
panics). -/
inductive DexError where
  | notOwner
  | tokensMustDiffer
  | invalidTokenAddress
  | pairNotActive
  | orderTooSmall
  | invalidPrice
  | notOrderOwner
  | orderAlreadyInactive
  | insufficientLiquidity
  | insufficientBalance
  | panic
  deriving Repr, DecidableEq

/-- Point update of the order store (`orders[i] = o`). -/
def setOrder (f : Nat → Order) (i : Nat) (o : Order) : Nat → Order :=
  fun j => if j = i then o else f j

/-- Point update of the balance ledger (`balances[a][t] = v`). -/
def setBal (f : Address → Address → Nat) (a t : Address) (v : Nat) :
    Address → Address → Nat :=
  fun a' t' => if a' = a ∧ t' = t then v else f a' t'

/-- Point update of the pair registry. -/
def setPair (f : Address → Address → TradingPair) (b q : Address)
    (p : TradingPair) : Address → Address → TradingPair :=
  fun b' q' => if b' = b ∧ q' = q then p else f b' q'

/-- Checked division: Solidity division by zero reverts (Panic 0x12). -/
def cdiv (x y : Nat) : Except DexError Nat :=
  if y = 0 then .error .panic else .ok (x / y)

/-- Checked subtraction: Solidity 0.8 `-=` reverts on underflow
(Panic 0x11). -/
def csub (x y : Nat) : Except DexError Nat :=
  if x < y then .error .panic else .ok (x - y)

/-- Checked multiplication: Solidity 0.8 `*` reverts when the product
does not fit in a uint256 (Panic 0x11). -/
def cmul (x y : Nat) : Except DexError Nat :=
  if x * y ≤ UMAX then .ok (x * y) else .error .panic

/-- Embeds `addTradingPair` (lines 60-78): owner-only registration of an ordered
(base, quote) pair; overwrites any prior entry. -/
def addTradingPair (st : DexState) (sender base quote minOrderSize
    pricePrecision : Nat) : Except DexError DexState :=
  if sender ≠ st.owner then .error .notOwner
  else if base = quote then .error .tokensMustDiffer
  else if base = 0 ∨ quote = 0 then .error .invalidTokenAddress
  else .ok { st with
    tradingPairs := setPair st.tradingPairs base quote
      { baseToken := base, quoteToken := quote, isActive := true,
        minOrderSize := minOrderSize, pricePrecision := pricePrecision } }

/-- The accumulator of the `_tryMatchOrders` scan (lines 256-259). -/
structure ScanAcc where
  bestBuyPrice : Nat
  bestSellPrice : Nat
  bestBuyOrderId : Nat
  bestSellOrderId : Nat
  deriving Repr, DecidableEq

/-- One iteration of the `_tryMatchOrders` loop body (lines 262-276),
including the `else if` chaining of the source. -/
def scanStep (st : DexState) (base quote : Address) (acc : ScanAcc)
    (i : Nat) : ScanAcc :=
  let order := st.orders i
  if order.isActive ∧ order.baseToken = base ∧ order.quoteToken = quote then
    if order.isBuy ∧ acc.bestBuyPrice < order.price then
      { acc with bestBuyPrice := order.price, bestBuyOrderId := i }
    else if order.isBuy = false ∧ order.price < acc.bestSellPrice then
      { acc with bestSellPrice := order.price, bestSellOrderId := i }
    else acc
  else acc

/-- The full best-buy/best-sell scan of `_tryMatchOrders`, iterating
`i = 0 .. _orderIdCounter - 1` from the initial sentinels
`(0, type(uint256).max, 0, 0)`. -/
def scanOrders (st : DexState) (base quote : Address) : ScanAcc :=
  (List.range st.orderIdCounter).foldl (scanStep st base quote)
    { bestBuyPrice := 0, bestSellPrice := UMAX,
      bestBuyOrderId := 0, bestSellOrderId := 0 }

/-- Embeds `_executeMatch` (lines 287-311): settle one trade between a best buy
and best sell order.  Credits the two output legs only — the source never
debits the buyer's quote escrow or the seller's base escrow. -/
def executeMatch (st : DexState) (buyOrderId sellOrderId : Nat) :
    Except DexError DexState := do
  let buyOrder := st.orders buyOrderId
  let sellOrder := st.orders sellOrderId
  let matchAmount := min buyOrder.amount sellOrder.amount
  let matchPrice := (buyOrder.price + sellOrder.price) / 2
  let tradingFee := matchAmount * TRADING_FEE / FEE_DENOMINATOR
  let baseAmount := matchAmount - tradingFee
  let quoteAmount ← cdiv (baseAmount * matchPrice)
    ((st.tradingPairs buyOrder.baseToken buyOrder.quoteToken).pricePrecision)
  let bal1 := setBal st.balances buyOrder.trader buyOrder.baseToken
    (st.balances buyOrder.trader buyOrder.baseToken + baseAmount)
  let bal2 := setBal bal1 sellOrder.trader buyOrder.quoteToken
    (bal1 sellOrder.trader buyOrder.quoteToken + quoteAmount)
  let buyOrder' : Order :=
    { buyOrder with amount := buyOrder.amount - matchAmount }
  let sellOrder' : Order :=
    { sellOrder with amount := sellOrder.amount - matchAmount }
  let buyOrder'' : Order :=
    if buyOrder'.amount = 0 then { buyOrder' with isActive := false }
    else buyOrder'
  let sellOrder'' : Order :=
    if sellOrder'.amount = 0 then { sellOrder' with isActive := false }
    else sellOrder'
  let orders1 := setOrder st.orders buyOrderId buyOrder''
  let orders2 := setOrder orders1 sellOrderId sellOrder''
  .ok { st with balances := bal2, orders := orders2 }

/-- Embeds `_tryMatchOrders` (lines 254-282): scan, then match once iff the best
prices cross *and both recorded ids differ from the 0 sentinel*. -/
def tryMatchOrders (st : DexState) (base quote : Address) :
    Except DexError DexState :=
  let s := scanOrders st base quote
  if s.bestSellPrice ≤ s.bestBuyPrice ∧ s.bestBuyOrderId ≠ 0 ∧
      s.bestSellOrderId ≠ 0 then
    executeMatch st s.bestBuyOrderId s.bestSellOrderId
  else .ok st

/-- Embeds `placeLimitOrder` (lines 83-127). Returns the new state and the
assigned order id. -/
def placeLimitOrder (st : DexState) (sender baseToken quoteToken : Address)
    (amount price : Nat) (isBuy : Bool) (timestamp : Nat) :
    Except DexError (DexState × Nat) := do
  let pair := st.tradingPairs baseToken quoteToken
  if pair.isActive = false then throw .pairNotActive
  if amount < pair.minOrderSize then throw .orderTooSmall
  if price = 0 then throw .invalidPrice
  -- escrow: transferFrom(sender, this, …) pulls tokens (external), then
  -- the ledger is credited
  let balances1 ←
    if isBuy then do
      let quoteAmount ← cdiv (amount * price) pair.pricePrecision
      pure (setBal st.balances sender quoteToken
        (st.balances sender quoteToken + quoteAmount))
    else
      pure (setBal st.balances sender baseToken
        (st.balances sender baseToken + amount))
  let orderId := st.orderIdCounter
  let newOrder : Order :=
    { id := orderId, trader := sender, baseToken := baseToken,
      quoteToken := quoteToken, amount := amount, price := price,
      isBuy := isBuy, isActive := true, timestamp := timestamp }
  let st1 : DexState := { st with
    balances := balances1,
    orderIdCounter := orderId + 1,
    orders := setOrder st.orders orderId newOrder,
    userOrders := fun a =>
      if a = sender then st.userOrders a ++ [orderId] else st.userOrders a }
  let st2 ← tryMatchOrders st1 baseToken quoteToken
  return (st2, orderId)

/-- The market-buy walk of `_executeMarketBuy` (lines 321-334): read-only
scan over ascending order ids accumulating `(remainingAmount, totalCost)`;
stops once `remainingAmount = 0`. -/
def marketBuyWalk (st : DexState) (base quote precision : Nat) :
    List Nat → Nat → Nat → Except DexError (Nat × Nat)
  | [], rem, totalCost => .ok (rem, totalCost)
  | i :: is, rem, totalCost =>
    if rem = 0 then .ok (rem, totalCost)
    else
      let order := st.orders i
      if order.isActive ∧ order.isBuy = false ∧ order.baseToken = base ∧
          order.quoteToken = quote then do
        let matchAmount := min rem order.amount
        let prod ← cmul matchAmount order.price
        let cost ← cdiv prod precision
        marketBuyWalk st base quote precision is (rem - matchAmount)
          (totalCost + cost)
      else marketBuyWalk st base quote precision is rem totalCost

/-- Embeds `_executeMarketBuy` (lines 316-341).  Returns the new state and the
`totalCost` pulled from the buyer by the external `transferFrom`. -/
def executeMarketBuy (st : DexState) (sender base quote : Address)
    (amount : Nat) : Except DexError (DexState × Nat) := do
  let precision := (st.tradingPairs base quote).pricePrecision
  let (rem, totalCost) ←
    marketBuyWalk st base quote precision (List.range st.orderIdCounter)
      amount 0
  if rem ≠ 0 then throw .insufficientLiquidity
  -- transferFrom(sender, this, totalCost) is external; only the buyer's
  -- base-token ledger entry is mutated
  let newBals := setBal st.balances sender base
    (st.balances sender base + amount)
  return ({ st with balances := newBals }, totalCost)

/-- The market-sell walk of `_executeMarketSell` (lines 351-364). -/
def marketSellWalk (st : DexState) (base quote precision : Nat) :
    List Nat → Nat → Nat → Except DexError (Nat × Nat)
  | [], rem, totalRevenue => .ok (rem, totalRevenue)
  | i :: is, rem, totalRevenue =>
    if rem = 0 then .ok (rem, totalRevenue)
    else
      let order := st.orders i
      if order.isActive ∧ order.isBuy = true ∧ order.baseToken = base ∧
          order.quoteToken = quote then do
        let matchAmount := min rem order.amount
        let prod ← cmul matchAmount order.price
        let revenue ← cdiv prod precision
        marketSellWalk st base quote precision is (rem - matchAmount)
          (totalRevenue + revenue)
      else marketSellWalk st base quote precision is rem totalRevenue

/-- Embeds `_executeMarketSell` (lines 346-371).  Returns the new state and the
`totalRevenue` credited to the seller's quote ledger. -/
def executeMarketSell (st : DexState) (sender base quote : Address)
    (amount : Nat) : Except DexError (DexState × Nat) := do
  let precision := (st.tradingPairs base quote).pricePrecision
  let (rem, totalRevenue) ←
    marketSellWalk st base quote precision (List.range st.orderIdCounter)
      amount 0
  if rem ≠ 0 then throw .insufficientLiquidity
  -- transferFrom(sender, this, amount) of base tokens is external
  let newBals := setBal st.balances sender quote
    (st.balances sender quote + totalRevenue)
  return ({ st with balances := newBals }, totalRevenue)

/-- Embeds `placeMarketOrder` (lines 132-149). -/
def placeMarketOrder (st : DexState) (sender base quote : Address)
    (amount : Nat) (isBuy : Bool) : Except DexError (DexState × Nat) := do
  let pair := st.tradingPairs base quote
  if pair.isActive = false then throw .pairNotActive
  if amount < pair.minOrderSize then throw .orderTooSmall
  if isBuy then executeMarketBuy st sender base quote amount
  else executeMarketSell st sender base quote amount

/-- Embeds `cancelOrder` (lines 154-172): owner-only, active-only; flips
`isActive` and debits the ledger by the remaining escrow (the external
refund `transfer` is a collaborator). -/
def cancelOrder (st : DexState) (sender : Address) (orderId : Nat) :
    Except DexError DexState := do
  let order := st.orders orderId
  if order.trader ≠ sender then throw .notOrderOwner
  if order.isActive = false then throw .orderAlreadyInactive
  let orders1 := setOrder st.orders orderId { order with isActive := false }
  if order.isBuy then do
    let quoteAmount ← cdiv (order.amount * order.price)
      ((st.tradingPairs order.baseToken order.quoteToken).pricePrecision)
    let newBal ← csub (st.balances sender order.quoteToken) quoteAmount
    let newBals := setBal st.balances sender order.quoteToken newBal
    return { st with orders := orders1, balances := newBals }
  else do
    let newBal ← csub (st.balances sender order.baseToken) order.amount
    let newBals := setBal st.balances sender order.baseToken newBal
    return { st with orders := orders1, balances := newBals }

/-- Embeds `withdraw` (lines 376-380). -/
def withdraw (st : DexState) (sender token : Address) (amount : Nat) :
    Except DexError DexState :=
  if st.balances sender token < amount then .error .insufficientBalance
  else
    let newBals := setBal st.balances sender token
      (st.balances sender token - amount)
    .ok { st with balances := newBals }

/-- The externally callable mutating operations of the contract. -/
inductive Op where
  | addPair (sender base quote minOrderSize pricePrecision : Nat)
  | limit (sender base quote amount price : Nat) (isBuy : Bool)
      (timestamp : Nat)
  | market (sender base quote amount : Nat) (isBuy : Bool)
  | cancel (sender orderId : Nat)
  | withdrawal (sender token amount : Nat)

/-- Dispatch one external call. -/
def applyOp (st : DexState) : Op → Except DexError DexState
  | .addPair s b q m p => addTradingPair st s b q m p
  | .limit s b q a p ib ts => (placeLimitOrder st s b q a p ib ts).map (·.1)
  | .market s b q a ib => (placeMarketOrder st s b q a ib).map (·.1)
  | .cancel s oid => cancelOrder st s oid
  | .withdrawal s t a => withdraw st s t a

/-- Freshly deployed contract: counter 0, zero-initialized storage,
deployer is the owner. -/
def initState (owner : Address) : DexState :=
  { orderIdCounter := 0, orders := fun _ => emptyOrder,
    tradingPairs := fun _ _ => emptyPair, userOrders := fun _ => [],
    balances := fun _ _ => 0, owner := owner }

/-- Run a sequence of external calls from deployment; any revert aborts
the whole run. -/
def runOps (owner : Address) (ops : List Op) : Except DexError DexState :=
  ops.foldlM applyOp (initState owner)

/-- Holds when order `i` is an active buy order of the exact
(base, quote) pair — the selection predicate of the scan loop. -/
def isActiveBuyOf (st : DexState) (base quote i : Nat) : Prop :=
  (st.orders i).isActive = true ∧ (st.orders i).isBuy = true ∧
  (st.orders i).baseToken = base ∧ (st.orders i).quoteToken = quote

/-- Holds when order `i` is an active sell order of the exact
(base, quote) pair. -/
def isActiveSellOf (st : DexState) (base quote i : Nat) : Prop :=
  (st.orders i).isActive = true ∧ (st.orders i).isBuy = false ∧
  (st.orders i).baseToken = base ∧ (st.orders i).quoteToken = quote

instance (st : DexState) (base quote i : Nat) :
    Decidable (isActiveBuyOf st base quote i) := by
  unfold isActiveBuyOf; infer_instance

instance (st : DexState) (base quote i : Nat) :
    Decidable (isActiveSellOf st base quote i) := by
  unfold isActiveSellOf; infer_instance

/-- The buy component of one scan iteration: the accumulator is the
(bestBuyPrice, bestBuyOrderId) pair. -/
def buyStep (st : DexState) (base quote : Address) (acc : Nat × Nat)
    (i : Nat) : Nat × Nat :=
  if isActiveBuyOf st base quote i ∧ acc.1 < (st.orders i).price
  then ((st.orders i).price, i) else acc

/-- The sell component of one scan iteration: the accumulator is the
(bestSellPrice, bestSellOrderId) pair. -/
def sellStep (st : DexState) (base quote : Address) (acc : Nat × Nat)
    (i : Nat) : Nat × Nat :=
  if isActiveSellOf st base quote i ∧ (st.orders i).price < acc.1
  then ((st.orders i).price, i) else acc

/-- The buy side of the scan over order ids `0 .. n-1`. -/
def buyBest (st : DexState) (base quote : Address) (n : Nat) : Nat × Nat :=
  (List.range n).foldl (buyStep st base quote) (0, 0)

/-- The sell side of the scan over order ids `0 .. n-1`. -/
def sellBest (st : DexState) (base quote : Address) (n : Nat) : Nat × Nat :=
  (List.range n).foldl (sellStep st base quote) (UMAX, 0)

/-- The quote cost of a market buy as the source computes it, restated
without the accumulator and with no fee term: walk resting sell orders of
the pair in ascending id order, consume `min remaining amount` from each,
and sum `matchAmount * price / precision`. -/
def marketBuyCostSpec (st : DexState) (base quote precision : Nat) :
    List Nat → Nat → Nat
  | [], _ => 0
  | i :: is, rem =>
    let o := st.orders i
    if o.isActive = true ∧ o.isBuy = false ∧ o.baseToken = base ∧
        o.quoteToken = quote ∧ rem ≠ 0 then
      min rem o.amount * o.price / precision +
        marketBuyCostSpec st base quote precision is (rem - min rem o.amount)
    else marketBuyCostSpec st base quote precision is rem

/-- The quote revenue of a market sell, restated the same way over
resting buy orders. -/
def marketSellRevenueSpec (st : DexState) (base quote precision : Nat) :
    List Nat → Nat → Nat
  | [], _ => 0
  | i :: is, rem =>
    let o := st.orders i
    if o.isActive = true ∧ o.isBuy = true ∧ o.baseToken = base ∧
        o.quoteToken = quote ∧ rem ≠ 0 then
      min rem o.amount * o.price / precision +
        marketSellRevenueSpec st base quote precision is (rem - min rem o.amount)
    else marketSellRevenueSpec st base quote precision is rem

/-- Invariant tying a zero remaining amount to the inactive flag. -/
def OrdersInv (st : DexState) : Prop :=
  ∀ i, (st.orders i).amount = 0 → (st.orders i).isActive = false

/-- Every active trading pair demands a positive minimum order size, so
no order can be created with amount 0. -/
def MinSizePos (st : DexState) : Prop :=
  ∀ b q, (st.tradingPairs b q).isActive = true →
    1 ≤ (st.tradingPairs b q).minOrderSize

/-! ## Concrete traces used to settle the claims

Addresses: `1` is the deployer/owner, `2`-`5` are traders, `11` is the
base token, `12` the quote token. -/

/-- Trace for C1: owner registers (11,12) with precision 1; trader 2
parks a non-crossing sell (order 0, so that the id-0 sentinel does not
suppress the match); trader 3 places a buy of 10000 at price 2 (order 1,
depositing 20000 quote); trader 4 places a crossing sell of 10000 at
price 2 (order 2, depositing 10000 base), which triggers one match. -/
def c1Ops : List Op :=
  [.addPair 1 11 12 1 1, .limit 2 11 12 1 1000000 false 0,
   .limit 3 11 12 10000 2 true 0, .limit 4 11 12 10000 2 false 0]

/-- Trace for C2: trader 4 rests a sell of 10 at price 2 (order 0), then
trader 3 sends a market buy of 10 that fully consumes that liquidity. -/
def c2Ops : List Op :=
  [.addPair 1 11 12 1 1, .limit 4 11 12 10 2 false 0,
   .market 3 11 12 10 true]

/-- Trace for C3: trader 3 places a buy of 10 at price 2 — it receives
order id 0 — and trader 4 then places a sell of 10 at the same price, so
the book crosses with the best buy candidate being order 0. -/
def c3Ops : List Op :=
  [.addPair 1 11 12 1 1, .limit 3 11 12 10 2 true 0,
   .limit 4 11 12 10 2 false 0]

/-- Trace for C4, Scenario A of the spec: pair registered with
minOrderSize 1 and pricePrecision 10^18; trader 3 (X) places a buy limit
of amount 10 at price 2·10^18, trader 4 (Y) a sell limit of amount 10 at
the same price. -/
def c4Ops : List Op :=
  [.addPair 1 11 12 1 (10 ^ 18), .limit 3 11 12 10 (2 * 10 ^ 18) true 0,
   .limit 4 11 12 10 (2 * 10 ^ 18) false 0]

/-- Trace for C5: trader 3 places a buy at price 1 (order 0), trader 4 an
active sell priced exactly `type(uint256).max` (order 1): the unique
active sell of the pair, whose price collides with the scan sentinel. -/
def c5Ops : List Op :=
  [.addPair 1 11 12 1 1, .limit 3 11 12 1 1 true 0,
   .limit 4 11 12 1 UMAX false 0]

/-- Trace for C6: trader 3 places a buy of 10 at price 2 (escrowing 20
quote into the ledger), withdraws those 20 quote tokens again — `withdraw`
does not distinguish free from order-locked balance — and then cancels the
still-active order 0. -/
def c6Ops : List Op :=
  [.addPair 1 11 12 1 1, .limit 3 11 12 10 2 true 0,
   .withdrawal 3 12 20, .cancel 3 0]

/-- Overflow trace for the C7 amendment: the pair uses precision 1;
trader 4 rests a sell of 10 priced exactly `type(uint256).max` (a sell
placement never multiplies the price, so it is accepted), and trader 3
sends a market buy of 20, which exceeds the resting liquidity of 10: the
walk's cost multiplication 10 * (2^256 - 1) overflows before the
liquidity check is reached. -/
def c7OverflowOps : List Op :=
  [.addPair 1 11 12 1 1, .limit 4 11 12 10 UMAX false 0,
   .market 3 11 12 20 true]

/-- Trace for C8: the pair is registered with minOrderSize 0 and trader 3
places a buy limit of amount 0 at price 5. -/
def c8Ops : List Op :=
  [.addPair 1 11 12 0 1, .limit 3 11 12 0 5 true 0]

/-- A two-order book used as a concrete witness input: order 0 is an
active buy of 10 at price 2 by trader 3, order 1 an active sell of 10 at
price 2 by trader 4, pair (11, 12) active with minOrderSize 1 and
precision 1. -/
def twoOrderBook : DexState :=
  { orderIdCounter := 2,
    orders := fun i =>
      if i = 0 then
        { id := 0, trader := 3, baseToken := 11, quoteToken := 12,
          amount := 10, price := 2, isBuy := true, isActive := true,
          timestamp := 0 }
      else if i = 1 then
        { id := 1, trader := 4, baseToken := 11, quoteToken := 12,
          amount := 10, price := 2, isBuy := false, isActive := true,
          timestamp := 0 }
      else emptyOrder,
    tradingPairs := fun b q =>
      if b = 11 ∧ q = 12 then
        { baseToken := 11, quoteToken := 12, isActive := true,
          minOrderSize := 1, pricePrecision := 1 }
      else emptyPair,
    userOrders := fun a => if a = 3 then [0] else if a = 4 then [1] else [],
    balances := fun a t =>
      if a = 3 ∧ t = 12 then 20 else if a = 4 ∧ t = 11 then 10 else 0,
    owner := 1 }

/-- A one-order book used as a concrete witness input: order 0 is an
active sell of 10 at price 2 by trader 4; trader 4 holds the 10 escrowed
base tokens in the ledger. -/
def oneSellBook : DexState :=
  { orderIdCounter := 1,
    orders := fun i =>
      if i = 0 then
        { id := 0, trader := 4, baseToken := 11, quoteToken := 12,
          amount := 10, price := 2, isBuy := false, isActive := true,
          timestamp := 0 }
      else emptyOrder,
    tradingPairs := fun b q =>
      if b = 11 ∧ q = 12 then
        { baseToken := 11, quoteToken := 12, isActive := true,
          minOrderSize := 1, pricePrecision := 1 }
      else emptyPair,
    userOrders := fun a => if a = 4 then [0] else [],
    balances := fun a t => if a = 4 ∧ t = 11 then 10 else 0,
    owner := 1 }

end OrderBookDEX

/-! ## Claim theorems -/

namespace OrderBookDEX

/-- Reduction of a bind on a failed `Except` computation. -/
@[simp] theorem error_bind {α β : Type} (e : DexError)
    (f : α → Except DexError β) :
    (Except.error e : Except DexError α) >>= f = Except.error e := rfl

/-- Reduction of a bind on a successful `Except` computation. -/
@[simp] theorem ok_bind {α β : Type} (a : α) (f : α → Except DexError β) :
    (Except.ok a : Except DexError α) >>= f = f a := rfl

/-- Unfolds `throw` on `Except` to the error constructor. -/
@[simp] theorem throw_eq_error {α : Type} (e : DexError) :
    (throw e : Except DexError α) = Except.error e := rfl

/-- Unfolds `pure` on `Except` to the ok constructor. -/
@[simp] theorem pure_eq_ok {α : Type} (a : α) :
    (pure a : Except DexError α) = Except.ok a := rfl

/-- C1: the claim states that executing a match debits the buyer's
quote-token escrow and the seller's base-token escrow by the settled
amounts, so that no recorded balance exceeds deposits net of trades.  The
code only credits the two output legs: in the trace `c1Ops` buyer 3
deposits 20000 quote and seller 4 deposits 10000 base, a full 10000-unit
match executes at price 2 (fee 30, so 9970 base / 19940 quote are
credited), yet afterwards the buyer still holds the whole 20000 quote and
the seller the whole 10000 base — the escrows were never debited. -/
theorem c1_match_credits_without_debiting :
    (runOps 1 c1Ops).toOption.map (fun st =>
      (st.balances 3 12, st.balances 3 11, st.balances 4 11,
       st.balances 4 12, (st.orders 1).isActive, (st.orders 2).isActive)) =
    some (20000, 9970, 10000, 19940, false, false) := by
  rfl

/-- C2: the claim states that a market order decrements each consumed
resting order's amount (deactivating it at 0) and credits its owner, so
liquidity is never double-counted.  In the trace `c2Ops` a market buy of
10 fully consumes resting sell order 0 (trader 3 is credited 10 base),
yet the resting order keeps amount 10 and stays active, its owner 4 is
credited nothing, and a second market buy of 10 by trader 5 against the
very same order succeeds again. -/
theorem c2_market_buy_leaves_resting_order_untouched :
    (runOps 1 c2Ops).toOption.map (fun st =>
      ((st.orders 0).isActive, (st.orders 0).amount, st.balances 3 11,
       st.balances 4 12,
       (applyOp st (.market 5 11 12 10 true)).toOption.map
         (fun st2 => st2.balances 5 11))) =
    some (true, 10, 10, 0, some 10) := by
  rfl

/-- C3: the claim states that after every successful `placeLimitOrder`,
a crossing best-buy/best-sell pair is matched — including when the best
candidate is the order with id 0.  In the trace `c3Ops` order 0 is an
active buy at price 2 and order 1 an active sell at price 2, so the book
crosses, but `_tryMatchOrders` requires `bestBuyOrderId != 0` and skips
the match: both orders remain active with their full amounts. -/
theorem c3_crossing_with_id_zero_is_not_matched :
    (runOps 1 c3Ops).toOption.map (fun st =>
      ((st.orders 0).isBuy, (st.orders 0).price, (st.orders 0).isActive,
       (st.orders 0).amount, (st.orders 1).isBuy, (st.orders 1).price,
       (st.orders 1).isActive, (st.orders 1).amount)) =
    some (true, 2, true, 10, false, 2, true, 10) := by
  rfl

/-- C4: Scenario A claims one match with matchAmount 10, fee 0.03, buyer
credited 9.97 base and seller 19.94 quote, both orders ending inactive.
Running the scenario, no match occurs at all: the buy is order 0, which
the sentinel check of `_tryMatchOrders` excludes.  Both orders stay
active with amount 10, the buyer holds only the 20 (2·10^18·10/10^18)
quote escrow, the seller only the 10 base escrow, and no output leg is
credited.  (Even if a match did run, the integer fee 10·30/10000 would be
0, not 0.03 — the scenario's fractional amounts are unrepresentable.) -/
theorem c4_scenario_a_produces_no_match :
    (runOps 1 c4Ops).toOption.map (fun st =>
      ((st.orders 0).isActive, (st.orders 0).amount, (st.orders 1).isActive,
       (st.orders 1).amount, st.balances 3 12, st.balances 4 11,
       st.balances 3 11, st.balances 4 12)) =
    some (true, 10, true, 10, 20, 10, 0, 0) := by
  rfl

/-- C5 counterexample: in the reachable state of trace `c5Ops` the unique
active sell order of pair (11, 12) is order 1, priced `type(uint256).max`.
The claim says the scan selects it as best sell; instead its price
collides with the scan's sentinel initialization, so the scan returns
`bestSellOrderId = 0` (order 0 is a buy) and `bestSellPrice` still equal
to the sentinel — no sell is selected. -/
theorem c5_counterexample_sentinel_priced_sell_not_selected :
    (runOps 1 c5Ops).toOption.map (fun st =>
      ((scanOrders st 11 12).bestSellOrderId,
       (scanOrders st 11 12).bestSellPrice == UMAX,
       (st.orders 0).isBuy, (st.orders 1).isActive, (st.orders 1).isBuy,
       st.orderIdCounter)) =
    some (0, true, true, true, false, 2) := by
  rfl

/-- C6 counterexample: the claim says a cancel by the owner of an active
order always succeeds and debits the remaining escrow.  In trace `c6Ops`
trader 3 escrows 20 quote for buy order 0, withdraws those 20 (the ledger
does not separate free from locked balance), and then cancels the
still-active order: the debit `balances[3][12] -= 20` underflows and the
call reverts with an arithmetic panic instead of succeeding. -/
theorem c6_counterexample_cancel_panics_after_withdraw :
    runOps 1 c6Ops = .error .panic := by
  rfl

/-- C8 counterexample: the claim says an order whose amount is 0 is
inactive.  With minOrderSize 0 (which `addTradingPair` accepts),
`placeLimitOrder` creates order 0 with amount 0 and `isActive = true` in
trace `c8Ops`. -/
theorem c8_counterexample_zero_amount_order_is_active :
    (runOps 1 c8Ops).toOption.map (fun st =>
      ((st.orders 0).isActive, (st.orders 0).amount)) =
    some (true, 0) := by
  rfl

/-- C9: cancelling an order id that was never assigned reads the
zero-initialized order record, whose trader is the zero address; since
the caller is not the zero address, the owner check fails first and the
call reverts with `NotOrderOwner` ("Not your order"), not with an
order-not-found error. -/
theorem c9_cancel_unassigned_id_fails_owner_check (st : DexState)
    (sender : Address) (orderId : Nat)
    (hdefault : st.orders orderId = emptyOrder) (hsender : sender ≠ 0) :
    cancelOrder st sender orderId = .error .notOrderOwner := by
  have ht : (st.orders orderId).trader ≠ sender := by
    rw [hdefault]
    exact fun h => hsender h.symm
  unfold cancelOrder
  simp [ht]

/-- C9 witness: on the freshly deployed contract, trader 3 cancelling the
never-assigned order id 5 is rejected with `NotOrderOwner`. -/
theorem c9_witness :
    cancelOrder (initState 1) 3 5 = .error .notOrderOwner :=
  c9_cancel_unassigned_id_fails_owner_check (initState 1) 3 5 rfl (by decide)


/-- Cancellation by a non-owner is rejected and nothing changes. -/
theorem cancel_not_owner (st : DexState) (sender : Address) (orderId : Nat)
    (h : (st.orders orderId).trader ≠ sender) :
    cancelOrder st sender orderId = .error .notOrderOwner := by
  unfold cancelOrder
  simp [h]

/-- Cancellation of an inactive order by its owner is rejected. -/
theorem cancel_inactive (st : DexState) (sender : Address) (orderId : Nat)
    (h1 : (st.orders orderId).trader = sender)
    (h2 : (st.orders orderId).isActive = false) :
    cancelOrder st sender orderId = .error .orderAlreadyInactive := by
  unfold cancelOrder
  simp [h1, h2]

/-- Successful cancellation of an active buy order by its owner, when the
ledger balance covers the remaining quote escrow: the order is
deactivated (amount untouched), the ledger is debited exactly
`amount * price / pricePrecision`, and cancelling again is rejected. -/
theorem cancel_buy_ok (st : DexState) (sender : Address) (orderId : Nat)
    (h1 : (st.orders orderId).trader = sender)
    (h2 : (st.orders orderId).isActive = true)
    (h3 : (st.orders orderId).isBuy = true)
    (hp : (st.tradingPairs (st.orders orderId).baseToken
      (st.orders orderId).quoteToken).pricePrecision ≠ 0)
    (hb : (st.orders orderId).amount * (st.orders orderId).price /
        (st.tradingPairs (st.orders orderId).baseToken
          (st.orders orderId).quoteToken).pricePrecision ≤
      st.balances sender (st.orders orderId).quoteToken) :
    ∃ st', cancelOrder st sender orderId = .ok st' ∧
      (st'.orders orderId).isActive = false ∧
      (st'.orders orderId).amount = (st.orders orderId).amount ∧
      st'.balances sender (st.orders orderId).quoteToken =
        st.balances sender (st.orders orderId).quoteToken -
          (st.orders orderId).amount * (st.orders orderId).price /
            (st.tradingPairs (st.orders orderId).baseToken
              (st.orders orderId).quoteToken).pricePrecision ∧
      cancelOrder st' sender orderId = .error .orderAlreadyInactive := by
  refine ⟨{ st with
      orders := setOrder st.orders orderId
        { st.orders orderId with isActive := false },
      balances := setBal st.balances sender (st.orders orderId).quoteToken
        (st.balances sender (st.orders orderId).quoteToken -
          (st.orders orderId).amount * (st.orders orderId).price /
            (st.tradingPairs (st.orders orderId).baseToken
              (st.orders orderId).quoteToken).pricePrecision) },
    ?_, ?_, ?_, ?_, ?_⟩
  · unfold cancelOrder
    simp [h1, h2, h3, cdiv, hp, csub, Nat.not_lt.mpr hb]
  · simp [setOrder]
  · simp [setOrder]
  · simp [setBal]
  · apply cancel_inactive
    · simp [setOrder, h1]
    · simp [setOrder]

/-- Successful cancellation of an active sell order by its owner, when
the ledger balance covers the remaining base escrow: the order is
deactivated, the ledger is debited exactly the remaining amount, and
cancelling again is rejected. -/
theorem cancel_sell_ok (st : DexState) (sender : Address) (orderId : Nat)
    (h1 : (st.orders orderId).trader = sender)
    (h2 : (st.orders orderId).isActive = true)
    (h3 : (st.orders orderId).isBuy = false)
    (hb : (st.orders orderId).amount ≤
      st.balances sender (st.orders orderId).baseToken) :
    ∃ st', cancelOrder st sender orderId = .ok st' ∧
      (st'.orders orderId).isActive = false ∧
      (st'.orders orderId).amount = (st.orders orderId).amount ∧
      st'.balances sender (st.orders orderId).baseToken =
        st.balances sender (st.orders orderId).baseToken -
          (st.orders orderId).amount ∧
      cancelOrder st' sender orderId = .error .orderAlreadyInactive := by
  refine ⟨{ st with
      orders := setOrder st.orders orderId
        { st.orders orderId with isActive := false },
      balances := setBal st.balances sender (st.orders orderId).baseToken
        (st.balances sender (st.orders orderId).baseToken -
          (st.orders orderId).amount) },
    ?_, ?_, ?_, ?_, ?_⟩
  · unfold cancelOrder
    simp [h1, h2, h3, csub, Nat.not_lt.mpr hb]
  · simp [setOrder]
  · simp [setOrder]
  · simp [setBal]
  · apply cancel_inactive
    · simp [setOrder, h1]
    · simp [setOrder]

/-- When the owner's ledger balance does not cover the remaining base
escrow of an active sell order (possible because `withdraw` does not
exclude order-locked funds), cancellation reverts with an arithmetic
underflow panic. -/
theorem cancel_sell_panic (st : DexState) (sender : Address) (orderId : Nat)
    (h1 : (st.orders orderId).trader = sender)
    (h2 : (st.orders orderId).isActive = true)
    (h3 : (st.orders orderId).isBuy = false)
    (hb : st.balances sender (st.orders orderId).baseToken <
      (st.orders orderId).amount) :
    cancelOrder st sender orderId = .error .panic := by
  unfold cancelOrder
  simp [h1, h2, h3, csub, hb]

/-- C6 (amended): `cancelOrder` fails with `NotOrderOwner` when the
caller is not the order's trader (the state is untouched — a revert
returns no state), fails with `OrderAlreadyInactive` when the order is
already inactive, and otherwise — provided the caller's recorded ledger
balance covers the remaining escrow and, for buy orders, the pair's
pricePrecision is nonzero — sets `isActive` to false and debits the
caller's ledger by exactly `amount * price / pricePrecision` quote tokens
for a buy order, or `amount` base tokens for a sell order; a second
cancellation of the same id then fails with `OrderAlreadyInactive`.  When
the recorded balance does not cover the refund (reachable, because
`withdraw` does not exclude order-locked funds), the call instead reverts
with an arithmetic underflow panic, stated here for sell orders. -/
theorem c6_cancel_order_behavior (st : DexState) (sender : Address)
    (orderId : Nat) :
    ((st.orders orderId).trader ≠ sender →
      cancelOrder st sender orderId = .error .notOrderOwner) ∧
    ((st.orders orderId).trader = sender →
      (st.orders orderId).isActive = false →
      cancelOrder st sender orderId = .error .orderAlreadyInactive) ∧
    ((st.orders orderId).trader = sender →
      (st.orders orderId).isActive = true →
      (st.orders orderId).isBuy = true →
      (st.tradingPairs (st.orders orderId).baseToken
        (st.orders orderId).quoteToken).pricePrecision ≠ 0 →
      (st.orders orderId).amount * (st.orders orderId).price /
          (st.tradingPairs (st.orders orderId).baseToken
            (st.orders orderId).quoteToken).pricePrecision ≤
        st.balances sender (st.orders orderId).quoteToken →
      ∃ st', cancelOrder st sender orderId = .ok st' ∧
        (st'.orders orderId).isActive = false ∧
        (st'.orders orderId).amount = (st.orders orderId).amount ∧
        st'.balances sender (st.orders orderId).quoteToken =
          st.balances sender (st.orders orderId).quoteToken -
            (st.orders orderId).amount * (st.orders orderId).price /
              (st.tradingPairs (st.orders orderId).baseToken
                (st.orders orderId).quoteToken).pricePrecision ∧
        cancelOrder st' sender orderId = .error .orderAlreadyInactive) ∧
    ((st.orders orderId).trader = sender →
      (st.orders orderId).isActive = true →
      (st.orders orderId).isBuy = false →
      (st.orders orderId).amount ≤
        st.balances sender (st.orders orderId).baseToken →
      ∃ st', cancelOrder st sender orderId = .ok st' ∧
        (st'.orders orderId).isActive = false ∧
        (st'.orders orderId).amount = (st.orders orderId).amount ∧
        st'.balances sender (st.orders orderId).baseToken =
          st.balances sender (st.orders orderId).baseToken -
            (st.orders orderId).amount ∧
        cancelOrder st' sender orderId = .error .orderAlreadyInactive) ∧
    ((st.orders orderId).trader = sender →
      (st.orders orderId).isActive = true →
      (st.orders orderId).isBuy = false →
      st.balances sender (st.orders orderId).baseToken <
        (st.orders orderId).amount →
      cancelOrder st sender orderId = .error .panic) :=
  ⟨fun h => cancel_not_owner st sender orderId h,
   fun h1 h2 => cancel_inactive st sender orderId h1 h2,
   fun h1 h2 h3 hp hb => cancel_buy_ok st sender orderId h1 h2 h3 hp hb,
   fun h1 h2 h3 hb => cancel_sell_ok st sender orderId h1 h2 h3 hb,
   fun h1 h2 h3 hb => cancel_sell_panic st sender orderId h1 h2 h3 hb⟩

/-- C6 witness: trader 4 cancels their active sell order 0 on the
concrete book `oneSellBook`; the order is deactivated and the 10 escrowed
base tokens are debited from the ledger. -/
theorem c6_witness :
    (cancelOrder oneSellBook 4 0).toOption.map
      (fun st' => ((st'.orders 0).isActive, st'.balances 4 11)) =
    some (false, 0) := by
  obtain ⟨st', hok, hina, _, hbal, _⟩ :=
    (c6_cancel_order_behavior oneSellBook 4 0).2.2.2.1 (by decide) (by decide)
      (by decide) (by decide)
  simp [oneSellBook, emptyOrder] at hbal
  rw [hok]
  simp only [Except.toOption, Option.map_some']
  rw [hina, hbal]

/-- Evidence that the overflow proviso of the C7 amendment is necessary:
in the reachable state of `c7OverflowOps` a resting sell of 10 is priced
`type(uint256).max`, and a market buy of 20 — which exceeds the resting
liquidity of 10 — reverts with an overflow panic from the cost
multiplication `10 * (2 ^ 256 - 1)`, not with `InsufficientLiquidity`. -/
theorem market_buy_cost_overflow_panics :
    runOps 1 c7OverflowOps = .error .panic := by
  rfl

/-- The fee-free cost sum is 0 once nothing remains to fill. -/
theorem marketBuyCostSpec_zero (st : DexState) (base quote precision : Nat) :
    ∀ l : List Nat,
      marketBuyCostSpec st base quote precision l 0 = 0 := by
  intro l
  induction l with
  | nil => rfl
  | cons i is ih => simp [marketBuyCostSpec, ih]

/-- The fee-free revenue sum is 0 once nothing remains to fill. -/
theorem marketSellRevenueSpec_zero (st : DexState)
    (base quote precision : Nat) :
    ∀ l : List Nat,
      marketSellRevenueSpec st base quote precision l 0 = 0 := by
  intro l
  induction l with
  | nil => rfl
  | cons i is ih => simp [marketSellRevenueSpec, ih]

/-- A successful market-buy walk accumulates exactly the fee-free cost
sum on top of its accumulator. -/
theorem marketBuyWalk_cost (st : DexState) (base quote precision : Nat) :
    ∀ (l : List Nat) (rem tc rem' total : Nat),
      marketBuyWalk st base quote precision l rem tc = .ok (rem', total) →
      total = tc + marketBuyCostSpec st base quote precision l rem := by
  intro l
  induction l with
  | nil =>
    intro rem tc rem' total h
    simp only [marketBuyWalk] at h
    cases h
    simp [marketBuyCostSpec]
  | cons i is ih =>
    intro rem tc rem' total h
    by_cases h0 : rem = 0
    · subst h0
      simp only [marketBuyWalk] at h
      simp at h
      cases h.2
      simp [marketBuyCostSpec, marketBuyCostSpec_zero]
    · by_cases hm : (st.orders i).isActive = true ∧
          (st.orders i).isBuy = false ∧ (st.orders i).baseToken = base ∧
          (st.orders i).quoteToken = quote
      · by_cases hov : min rem (st.orders i).amount * (st.orders i).price ≤
            UMAX
        · by_cases hp : precision = 0
          · simp only [marketBuyWalk] at h
            simp [h0, hm, cmul, hov, cdiv, hp] at h
          · simp only [marketBuyWalk] at h
            simp [h0, hm, cmul, hov, cdiv, hp] at h
            have hrec := ih _ _ _ _ h
            have hcond : (st.orders i).isActive = true ∧
                (st.orders i).isBuy = false ∧
                (st.orders i).baseToken = base ∧
                (st.orders i).quoteToken = quote ∧ rem ≠ 0 :=
              ⟨hm.1, hm.2.1, hm.2.2.1, hm.2.2.2, h0⟩
            simp only [marketBuyCostSpec, if_pos hcond]
            omega
        · simp only [marketBuyWalk] at h
          simp [h0, hm, cmul, hov] at h
      · simp only [marketBuyWalk] at h
        simp [h0, hm] at h
        have := ih _ _ _ _ h
        have hcond : ¬((st.orders i).isActive = true ∧
            (st.orders i).isBuy = false ∧ (st.orders i).baseToken = base ∧
            (st.orders i).quoteToken = quote ∧ rem ≠ 0) := by
          intro hc
          exact hm ⟨hc.1, hc.2.1, hc.2.2.1, hc.2.2.2.1⟩
        simp only [marketBuyCostSpec, if_neg hcond]
        exact this

/-- A successful market-sell walk accumulates exactly the fee-free
revenue sum on top of its accumulator. -/
theorem marketSellWalk_revenue (st : DexState) (base quote precision : Nat) :
    ∀ (l : List Nat) (rem tc rem' total : Nat),
      marketSellWalk st base quote precision l rem tc = .ok (rem', total) →
      total = tc + marketSellRevenueSpec st base quote precision l rem := by
  intro l
  induction l with
  | nil =>
    intro rem tc rem' total h
    simp only [marketSellWalk] at h
    cases h
    simp [marketSellRevenueSpec]
  | cons i is ih =>
    intro rem tc rem' total h
    by_cases h0 : rem = 0
    · subst h0
      simp only [marketSellWalk] at h
      simp at h
      cases h.2
      simp [marketSellRevenueSpec, marketSellRevenueSpec_zero]
    · by_cases hm : (st.orders i).isActive = true ∧
          (st.orders i).isBuy = true ∧ (st.orders i).baseToken = base ∧
          (st.orders i).quoteToken = quote
      · by_cases hov : min rem (st.orders i).amount * (st.orders i).price ≤
            UMAX
        · by_cases hp : precision = 0
          · simp only [marketSellWalk] at h
            simp [h0, hm, cmul, hov, cdiv, hp] at h
          · simp only [marketSellWalk] at h
            simp [h0, hm, cmul, hov, cdiv, hp] at h
            have hrec := ih _ _ _ _ h
            have hcond : (st.orders i).isActive = true ∧
                (st.orders i).isBuy = true ∧
                (st.orders i).baseToken = base ∧
                (st.orders i).quoteToken = quote ∧ rem ≠ 0 :=
              ⟨hm.1, hm.2.1, hm.2.2.1, hm.2.2.2, h0⟩
            simp only [marketSellRevenueSpec, if_pos hcond]
            omega
        · simp only [marketSellWalk] at h
          simp [h0, hm, cmul, hov] at h
      · simp only [marketSellWalk] at h
        simp [h0, hm] at h
        have := ih _ _ _ _ h
        have hcond : ¬((st.orders i).isActive = true ∧
            (st.orders i).isBuy = true ∧ (st.orders i).baseToken = base ∧
            (st.orders i).quoteToken = quote ∧ rem ≠ 0) := by
          intro hc
          exact hm ⟨hc.1, hc.2.1, hc.2.2.1, hc.2.2.2.1⟩
        simp only [marketSellRevenueSpec, if_neg hcond]
        exact this

/-- C10: market orders are charged no trading fee.  A successful market
buy credits the taker's base-token ledger entry with exactly the full
requested amount, and the quote cost pulled from the taker is the plain
sum of `matchAmount * order.price / pricePrecision` over the consumed
resting sell orders, with no fee term; symmetrically, a successful market
sell credits the taker's quote ledger with exactly that fee-free revenue
sum.  By contrast, a limit match credits the buyer only
`matchAmount - matchAmount * TRADING_FEE / FEE_DENOMINATOR` base tokens
— the 0.30% fee is deducted from the base leg. -/
theorem c10_market_orders_fee_free :
    (∀ (st : DexState) (sender base quote amount : Nat)
        (st' : DexState) (totalCost : Nat),
      executeMarketBuy st sender base quote amount = .ok (st', totalCost) →
      st'.balances sender base = st.balances sender base + amount ∧
      totalCost = marketBuyCostSpec st base quote
        (st.tradingPairs base quote).pricePrecision
        (List.range st.orderIdCounter) amount) ∧
    (∀ (st : DexState) (sender base quote amount : Nat)
        (st' : DexState) (totalRevenue : Nat),
      executeMarketSell st sender base quote amount = .ok (st', totalRevenue) →
      st'.balances sender quote = st.balances sender quote + totalRevenue ∧
      totalRevenue = marketSellRevenueSpec st base quote
        (st.tradingPairs base quote).pricePrecision
        (List.range st.orderIdCounter) amount) ∧
    (∀ (st : DexState) (buyOrderId sellOrderId : Nat) (st' : DexState),
      (st.orders buyOrderId).baseToken ≠ (st.orders buyOrderId).quoteToken →
      executeMatch st buyOrderId sellOrderId = .ok st' →
      st'.balances (st.orders buyOrderId).trader
          (st.orders buyOrderId).baseToken =
        st.balances (st.orders buyOrderId).trader
            (st.orders buyOrderId).baseToken +
          (min (st.orders buyOrderId).amount (st.orders sellOrderId).amount -
            min (st.orders buyOrderId).amount (st.orders sellOrderId).amount *
              TRADING_FEE / FEE_DENOMINATOR)) := by
  refine ⟨?_, ?_, ?_⟩
  · intro st sender base quote amount st' totalCost h
    unfold executeMarketBuy at h
    cases hw : marketBuyWalk st base quote
        (st.tradingPairs base quote).pricePrecision
        (List.range st.orderIdCounter) amount 0 with
    | error e => simp [hw] at h
    | ok p =>
      obtain ⟨rem, tc⟩ := p
      simp [hw] at h
      by_cases hrem : rem = 0
      · simp [hrem] at h
        obtain ⟨hst, htc⟩ := h
        subst hst
        constructor
        · simp [setBal]
        · have := marketBuyWalk_cost st base quote
            (st.tradingPairs base quote).pricePrecision
            (List.range st.orderIdCounter) amount 0 rem tc hw
          omega
      · simp [hrem] at h
  · intro st sender base quote amount st' totalRevenue h
    unfold executeMarketSell at h
    cases hw : marketSellWalk st base quote
        (st.tradingPairs base quote).pricePrecision
        (List.range st.orderIdCounter) amount 0 with
    | error e => simp [hw] at h
    | ok p =>
      obtain ⟨rem, tc⟩ := p
      simp [hw] at h
      by_cases hrem : rem = 0
      · simp [hrem] at h
        obtain ⟨hst, htc⟩ := h
        subst hst
        constructor
        · simp [setBal]
          omega
        · have := marketSellWalk_revenue st base quote
            (st.tradingPairs base quote).pricePrecision
            (List.range st.orderIdCounter) amount 0 rem tc hw
          omega
      · simp [hrem] at h
  · intro st buyOrderId sellOrderId st' hne h
    unfold executeMatch at h
    by_cases hp : (st.tradingPairs (st.orders buyOrderId).baseToken
        (st.orders buyOrderId).quoteToken).pricePrecision = 0
    · simp [cdiv, hp] at h
    · simp [cdiv, hp] at h
      subst h
      have hkey : ¬((st.orders buyOrderId).trader =
            (st.orders sellOrderId).trader ∧
          (st.orders buyOrderId).baseToken =
            (st.orders buyOrderId).quoteToken) :=
        fun hc => hne hc.2
      simp [setBal, hkey]

/-- C10 witness: a market buy of 10 against `oneSellBook` succeeds and
credits the taker's base ledger with the full requested 10 — no fee. -/
theorem c10_witness :
    ((executeMarketBuy oneSellBook 3 11 12 10).toOption.getD
        (oneSellBook, 0)).1.balances 3 11 =
      oneSellBook.balances 3 11 + 10 :=
  (c10_market_orders_fee_free.1 oneSellBook 3 11 12 10
    ((executeMarketBuy oneSellBook 3 11 12 10).toOption.getD
        (oneSellBook, 0)).1
    ((executeMarketBuy oneSellBook 3 11 12 10).toOption.getD
        (oneSellBook, 0)).2 rfl).1

/-- One scan iteration acts independently on the buy and the sell
component of the accumulator. -/
theorem scanStep_decompose (st : DexState) (base quote : Address)
    (acc : ScanAcc) (i : Nat) :
    scanStep st base quote acc i =
      { bestBuyPrice :=
          (buyStep st base quote (acc.bestBuyPrice, acc.bestBuyOrderId) i).1,
        bestSellPrice :=
          (sellStep st base quote (acc.bestSellPrice, acc.bestSellOrderId) i).1,
        bestBuyOrderId :=
          (buyStep st base quote (acc.bestBuyPrice, acc.bestBuyOrderId) i).2,
        bestSellOrderId :=
          (sellStep st base quote (acc.bestSellPrice, acc.bestSellOrderId) i).2 } := by
  unfold scanStep buyStep sellStep isActiveBuyOf isActiveSellOf
  by_cases hIsBuy : (st.orders i).isBuy = true <;>
    by_cases hA : (st.orders i).isActive = true <;>
    by_cases hB : (st.orders i).baseToken = base <;>
    by_cases hQ : (st.orders i).quoteToken = quote <;>
    simp_all <;>
    first
    | rfl
    | (split_ifs <;> rfl)

/-- The whole scan fold decomposes into the two independent component
folds. -/
theorem scan_foldl_decompose (st : DexState) (base quote : Address) :
    ∀ (l : List Nat) (acc : ScanAcc),
      l.foldl (scanStep st base quote) acc =
        { bestBuyPrice := (l.foldl (buyStep st base quote)
            (acc.bestBuyPrice, acc.bestBuyOrderId)).1,
          bestSellPrice := (l.foldl (sellStep st base quote)
            (acc.bestSellPrice, acc.bestSellOrderId)).1,
          bestBuyOrderId := (l.foldl (buyStep st base quote)
            (acc.bestBuyPrice, acc.bestBuyOrderId)).2,
          bestSellOrderId := (l.foldl (sellStep st base quote)
            (acc.bestSellPrice, acc.bestSellOrderId)).2 } := by
  intro l
  induction l with
  | nil => intro acc; rfl
  | cons i is ih =>
    intro acc
    simp only [List.foldl_cons]
    rw [scanStep_decompose, ih]

/-- The scan of `_tryMatchOrders` equals the pair of component folds. -/
theorem scanOrders_decompose (st : DexState) (base quote : Address) :
    scanOrders st base quote =
      { bestBuyPrice := (buyBest st base quote st.orderIdCounter).1,
        bestSellPrice := (sellBest st base quote st.orderIdCounter).1,
        bestBuyOrderId := (buyBest st base quote st.orderIdCounter).2,
        bestSellOrderId := (sellBest st base quote st.orderIdCounter).2 } := by
  unfold scanOrders buyBest sellBest
  rw [scan_foldl_decompose]

/-- One right-step of the buy fold over `0 .. n`. -/
theorem buyBest_succ (st : DexState) (base quote : Address) (n : Nat) :
    buyBest st base quote (n + 1) =
      buyStep st base quote (buyBest st base quote n) n := by
  unfold buyBest
  rw [List.range_succ, List.foldl_append, List.foldl_cons, List.foldl_nil]

/-- One right-step of the sell fold over `0 .. n`. -/
theorem sellBest_succ (st : DexState) (base quote : Address) (n : Nat) :
    sellBest st base quote (n + 1) =
      sellStep st base quote (sellBest st base quote n) n := by
  unfold sellBest
  rw [List.range_succ, List.foldl_append, List.foldl_cons, List.foldl_nil]

/-- Full characterization of the buy side of the scan: price 0 means no
candidate was recorded (id still the 0 sentinel); otherwise the recorded
id is an active buy of the pair carrying the recorded price, the price
dominates every active buy, and at equal best price the least id wins. -/
theorem buyBest_spec (st : DexState) (base quote : Address) :
    ∀ n : Nat,
      ((buyBest st base quote n).1 = 0 → (buyBest st base quote n).2 = 0) ∧
      ((buyBest st base quote n).1 ≠ 0 →
        (buyBest st base quote n).2 < n ∧
        isActiveBuyOf st base quote (buyBest st base quote n).2 ∧
        (st.orders (buyBest st base quote n).2).price =
          (buyBest st base quote n).1) ∧
      (∀ i, i < n → isActiveBuyOf st base quote i →
        (st.orders i).price ≤ (buyBest st base quote n).1) ∧
      (∀ i, i < n → isActiveBuyOf st base quote i →
        (st.orders i).price = (buyBest st base quote n).1 →
        (buyBest st base quote n).2 ≤ i) := by
  intro n
  induction n with
  | zero =>
    refine ⟨fun _ => rfl, fun h => absurd rfl h, ?_, ?_⟩ <;>
      exact fun i hi => absurd hi (by omega)
  | succ n ih =>
    obtain ⟨ha, hb, hc, hd⟩ := ih
    by_cases hcond : isActiveBuyOf st base quote n ∧
        (buyBest st base quote n).1 < (st.orders n).price
    · have hval : buyBest st base quote (n + 1) = ((st.orders n).price, n) := by
        rw [buyBest_succ]
        unfold buyStep
        rw [if_pos hcond]
      refine ⟨?_, ?_, ?_, ?_⟩
      · intro h
        rw [hval] at h
        simp at h
        have := hcond.2
        omega
      · intro _
        rw [hval]
        exact ⟨by omega, hcond.1, rfl⟩
      · intro i hi hbuy
        rw [hval]
        rcases Nat.lt_succ_iff_lt_or_eq.mp hi with hlt | heq
        · have := hc i hlt hbuy
          have := hcond.2
          simp only []
          omega
        · subst heq
          simp
      · intro i hi hbuy hpe
        rw [hval] at hpe ⊢
        rcases Nat.lt_succ_iff_lt_or_eq.mp hi with hlt | heq
        · have := hc i hlt hbuy
          have := hcond.2
          simp only [] at hpe
          omega
        · subst heq
          simp
    · have hval : buyBest st base quote (n + 1) = buyBest st base quote n := by
        rw [buyBest_succ]
        unfold buyStep
        rw [if_neg hcond]
      refine ⟨?_, ?_, ?_, ?_⟩
      · intro h
        rw [hval] at h ⊢
        exact ha h
      · intro h
        rw [hval] at h ⊢
        obtain ⟨h1, h2, h3⟩ := hb h
        exact ⟨by omega, h2, h3⟩
      · intro i hi hbuy
        rw [hval]
        rcases Nat.lt_succ_iff_lt_or_eq.mp hi with hlt | heq
        · exact hc i hlt hbuy
        · subst heq
          by_cases hp : (buyBest st base quote i).1 < (st.orders i).price
          · exact absurd ⟨hbuy, hp⟩ hcond
          · omega
      · intro i hi hbuy hpe
        rw [hval] at hpe ⊢
        rcases Nat.lt_succ_iff_lt_or_eq.mp hi with hlt | heq
        · exact hd i hlt hbuy hpe
        · subst heq
          by_cases h0 : (buyBest st base quote i).1 = 0
          · have := ha h0
            omega
          · have := (hb h0).1
            omega

/-- Full characterization of the sell side of the scan: the price never
exceeds the `UMAX` sentinel; price `UMAX` means no candidate was recorded
(id still the 0 sentinel); otherwise the recorded id is an active sell of
the pair carrying the recorded price, the price is below every active
sell, and at equal best price the least id wins. -/
theorem sellBest_spec (st : DexState) (base quote : Address) :
    ∀ n : Nat,
      (sellBest st base quote n).1 ≤ UMAX ∧
      ((sellBest st base quote n).1 = UMAX →
        (sellBest st base quote n).2 = 0) ∧
      ((sellBest st base quote n).1 ≠ UMAX →
        (sellBest st base quote n).2 < n ∧
        isActiveSellOf st base quote (sellBest st base quote n).2 ∧
        (st.orders (sellBest st base quote n).2).price =
          (sellBest st base quote n).1) ∧
      (∀ i, i < n → isActiveSellOf st base quote i →
        (sellBest st base quote n).1 ≤ (st.orders i).price) ∧
      (∀ i, i < n → isActiveSellOf st base quote i →
        (st.orders i).price = (sellBest st base quote n).1 →
        (sellBest st base quote n).2 ≤ i) := by
  intro n
  induction n with
  | zero =>
    refine ⟨Nat.le_refl UMAX, fun _ => rfl, fun h => absurd rfl h, ?_, ?_⟩ <;>
      exact fun i hi => absurd hi (by omega)
  | succ n ih =>
    obtain ⟨he, ha, hb, hc, hd⟩ := ih
    by_cases hcond : isActiveSellOf st base quote n ∧
        (st.orders n).price < (sellBest st base quote n).1
    · have hval : sellBest st base quote (n + 1) = ((st.orders n).price, n) := by
        rw [sellBest_succ]
        unfold sellStep
        rw [if_pos hcond]
      refine ⟨?_, ?_, ?_, ?_, ?_⟩
      · rw [hval]
        have := hcond.2
        simp only []
        omega
      · intro h
        rw [hval] at h
        simp at h
        have := hcond.2
        omega
      · intro _
        rw [hval]
        exact ⟨by omega, hcond.1, rfl⟩
      · intro i hi hsell
        rw [hval]
        rcases Nat.lt_succ_iff_lt_or_eq.mp hi with hlt | heq
        · have := hc i hlt hsell
          have := hcond.2
          simp only []
          omega
        · subst heq
          simp
      · intro i hi hsell hpe
        rw [hval] at hpe ⊢
        rcases Nat.lt_succ_iff_lt_or_eq.mp hi with hlt | heq
        · have := hc i hlt hsell
          have := hcond.2
          simp only [] at hpe
          omega
        · subst heq
          simp
    · have hval : sellBest st base quote (n + 1) = sellBest st base quote n := by
        rw [sellBest_succ]
        unfold sellStep
        rw [if_neg hcond]
      refine ⟨?_, ?_, ?_, ?_, ?_⟩
      · rw [hval]
        exact he
      · intro h
        rw [hval] at h ⊢
        exact ha h
      · intro h
        rw [hval] at h ⊢
        obtain ⟨h1, h2, h3⟩ := hb h
        exact ⟨by omega, h2, h3⟩
      · intro i hi hsell
        rw [hval]
        rcases Nat.lt_succ_iff_lt_or_eq.mp hi with hlt | heq
        · exact hc i hlt hsell
        · subst heq
          by_cases hp : (st.orders i).price < (sellBest st base quote i).1
          · exact absurd ⟨hsell, hp⟩ hcond
          · omega
      · intro i hi hsell hpe
        rw [hval] at hpe ⊢
        rcases Nat.lt_succ_iff_lt_or_eq.mp hi with hlt | heq
        · exact hd i hlt hsell hpe
        · subst heq
          by_cases h0 : (sellBest st base quote i).1 = UMAX
          · have := ha h0
            omega
          · have := (hb h0).1
            omega

/-- C5 (amended): whenever the pair has an active buy order (placement
guarantees active orders carry positive prices) and an active sell order
priced below `type(uint256).max` — prices equal to the maximum collide
with the scan's sentinel and are never selected — the scan of
`_tryMatchOrders` selects as best buy an active buy order of the exact
pair with the maximum price and as best sell an active sell order with
the minimum price, and whenever several active orders of one side share
that best price, the one with the lowest order id is chosen
(FIFO-by-id at equal price). -/
theorem c5_scan_selects_best_prices_fifo (st : DexState)
    (base quote : Address)
    (hbuy : ∃ i, i < st.orderIdCounter ∧ isActiveBuyOf st base quote i ∧
      0 < (st.orders i).price)
    (hsell : ∃ i, i < st.orderIdCounter ∧ isActiveSellOf st base quote i ∧
      (st.orders i).price < UMAX) :
    (isActiveBuyOf st base quote (scanOrders st base quote).bestBuyOrderId ∧
     (scanOrders st base quote).bestBuyOrderId < st.orderIdCounter ∧
     (scanOrders st base quote).bestBuyPrice =
       (st.orders (scanOrders st base quote).bestBuyOrderId).price ∧
     (∀ i, i < st.orderIdCounter → isActiveBuyOf st base quote i →
       (st.orders i).price ≤ (scanOrders st base quote).bestBuyPrice) ∧
     (∀ i, i < st.orderIdCounter → isActiveBuyOf st base quote i →
       (st.orders i).price = (scanOrders st base quote).bestBuyPrice →
       (scanOrders st base quote).bestBuyOrderId ≤ i)) ∧
    (isActiveSellOf st base quote (scanOrders st base quote).bestSellOrderId ∧
     (scanOrders st base quote).bestSellOrderId < st.orderIdCounter ∧
     (scanOrders st base quote).bestSellPrice =
       (st.orders (scanOrders st base quote).bestSellOrderId).price ∧
     (∀ i, i < st.orderIdCounter → isActiveSellOf st base quote i →
       (scanOrders st base quote).bestSellPrice ≤ (st.orders i).price) ∧
     (∀ i, i < st.orderIdCounter → isActiveSellOf st base quote i →
       (st.orders i).price = (scanOrders st base quote).bestSellPrice →
       (scanOrders st base quote).bestSellOrderId ≤ i)) := by
  obtain ⟨ib, hib, hbb, hpb⟩ := hbuy
  obtain ⟨is, his, hss, hps⟩ := hsell
  obtain ⟨ba, bb, bc, bd⟩ := buyBest_spec st base quote st.orderIdCounter
  obtain ⟨se, sa, sb, sc, sd⟩ := sellBest_spec st base quote st.orderIdCounter
  have hbne : (buyBest st base quote st.orderIdCounter).1 ≠ 0 := by
    have := bc ib hib hbb
    omega
  have hsne : (sellBest st base quote st.orderIdCounter).1 ≠ UMAX := by
    have := sc is his hss
    omega
  obtain ⟨hb1, hb2, hb3⟩ := bb hbne
  obtain ⟨hs1, hs2, hs3⟩ := sb hsne
  rw [scanOrders_decompose]
  exact ⟨⟨hb2, hb1, hb3.symm, bc, bd⟩, ⟨hs2, hs1, hs3.symm, sc, sd⟩⟩

/-- C5 witness: on the two-order book the scan selects order 0 (the only
active buy) and order 1 (the only active sell). -/
theorem c5_witness :
    isActiveBuyOf twoOrderBook 11 12
      (scanOrders twoOrderBook 11 12).bestBuyOrderId ∧
    isActiveSellOf twoOrderBook 11 12
      (scanOrders twoOrderBook 11 12).bestSellOrderId :=
  have h := c5_scan_selects_best_prices_fifo twoOrderBook 11 12
    ⟨0, by decide, by decide, by decide⟩ ⟨1, by decide, by decide, by decide⟩
  ⟨h.1.1, h.2.1⟩

/-- A successful `_executeMatch` keeps the order counter, never increases
any order's remaining amount, and preserves the zero-amount-implies-
inactive invariant. -/
theorem executeMatch_preserves (st : DexState) (b s : Nat) (st' : DexState)
    (h : executeMatch st b s = .ok st') :
    st'.orderIdCounter = st.orderIdCounter ∧
    (∀ i, (st'.orders i).amount ≤ (st.orders i).amount) ∧
    (OrdersInv st → OrdersInv st') := by
  unfold executeMatch at h
  by_cases hp : (st.tradingPairs (st.orders b).baseToken
      (st.orders b).quoteToken).pricePrecision = 0
  · simp [cdiv, hp] at h
  · simp [cdiv, hp] at h
    subst h
    refine ⟨rfl, ?_, ?_⟩
    · intro i
      by_cases his : i = s
      · subst his
        simp [setOrder, apply_ite Order.amount]
      · by_cases hib : i = b
        · subst hib
          simp [setOrder, his, apply_ite Order.amount]
        · simp [setOrder, his, hib]
    · intro hInv i
      by_cases his : i = s
      · subst his
        simp only [setOrder, apply_ite Order.amount,
          apply_ite Order.isActive, if_pos rfl, ite_self, if_true,
          eq_self_iff_true]
        intro hz
        simp [hz]
      · by_cases hib : i = b
        · subst hib
          simp only [setOrder, apply_ite Order.amount,
            apply_ite Order.isActive, if_neg his, if_pos rfl, ite_self,
            if_true, eq_self_iff_true]
          intro hz
          simp [hz]
        · simp only [setOrder, if_neg his, if_neg hib]
          exact hInv i

/-- If the scan records a nonzero id on both sides — the condition under
which `_tryMatchOrders` hands the pair to `_executeMatch` — then both
recorded orders are active in the scanned state: an inactive order never
participates in a match. -/
theorem scan_candidates_active (st : DexState) (base quote : Address)
    (hb : (scanOrders st base quote).bestBuyOrderId ≠ 0)
    (hs : (scanOrders st base quote).bestSellOrderId ≠ 0) :
    (st.orders (scanOrders st base quote).bestBuyOrderId).isActive = true ∧
    (st.orders (scanOrders st base quote).bestSellOrderId).isActive = true := by
  rw [scanOrders_decompose] at hb hs ⊢
  obtain ⟨ba, bb, _, _⟩ := buyBest_spec st base quote st.orderIdCounter
  obtain ⟨_, sa, sb, _, _⟩ := sellBest_spec st base quote st.orderIdCounter
  simp only [] at hb hs ⊢
  have h1 : (buyBest st base quote st.orderIdCounter).1 ≠ 0 :=
    fun h => hb (ba h)
  have h2 : (sellBest st base quote st.orderIdCounter).1 ≠ UMAX :=
    fun h => hs (sa h)
  exact ⟨(bb h1).2.1.1, (sb h2).2.1.1⟩

/-- A successful `_tryMatchOrders` keeps the order counter, never
increases any order's remaining amount, and preserves the
zero-amount-implies-inactive invariant. -/
theorem tryMatchOrders_preserves (st : DexState) (base quote : Address)
    (st' : DexState) (h : tryMatchOrders st base quote = .ok st') :
    st'.orderIdCounter = st.orderIdCounter ∧
    (∀ i, (st'.orders i).amount ≤ (st.orders i).amount) ∧
    (OrdersInv st → OrdersInv st') := by
  unfold tryMatchOrders at h
  by_cases hc : (scanOrders st base quote).bestSellPrice ≤
      (scanOrders st base quote).bestBuyPrice ∧
      (scanOrders st base quote).bestBuyOrderId ≠ 0 ∧
      (scanOrders st base quote).bestSellOrderId ≠ 0
  · rw [if_pos hc] at h
    exact executeMatch_preserves st _ _ st' h
  · rw [if_neg hc] at h
    cases h
    exact ⟨rfl, fun i => Nat.le_refl _, fun hInv => hInv⟩

/-- A successful market buy leaves the order store and counter untouched
(the walk is read-only — this is the C2 bug, used here as a fact). -/
theorem executeMarketBuy_orders (st : DexState) (sender base quote
    amount : Nat) (st' : DexState) (c : Nat)
    (h : executeMarketBuy st sender base quote amount = .ok (st', c)) :
    st'.orders = st.orders ∧ st'.orderIdCounter = st.orderIdCounter := by
  unfold executeMarketBuy at h
  cases hw : marketBuyWalk st base quote
      (st.tradingPairs base quote).pricePrecision
      (List.range st.orderIdCounter) amount 0 with
  | error e => simp [hw] at h
  | ok p =>
    obtain ⟨rem, tc⟩ := p
    simp [hw] at h
    by_cases hrem : rem = 0
    · simp [hrem] at h
      obtain ⟨hst, _⟩ := h
      subst hst
      exact ⟨rfl, rfl⟩
    · simp [hrem] at h

/-- A successful market sell leaves the order store and counter
untouched. -/
theorem executeMarketSell_orders (st : DexState) (sender base quote
    amount : Nat) (st' : DexState) (c : Nat)
    (h : executeMarketSell st sender base quote amount = .ok (st', c)) :
    st'.orders = st.orders ∧ st'.orderIdCounter = st.orderIdCounter := by
  unfold executeMarketSell at h
  cases hw : marketSellWalk st base quote
      (st.tradingPairs base quote).pricePrecision
      (List.range st.orderIdCounter) amount 0 with
  | error e => simp [hw] at h
  | ok p =>
    obtain ⟨rem, tc⟩ := p
    simp [hw] at h
    by_cases hrem : rem = 0
    · simp [hrem] at h
      obtain ⟨hst, _⟩ := h
      subst hst
      exact ⟨rfl, rfl⟩
    · simp [hrem] at h

/-- A successful `cancelOrder` keeps the order counter, keeps every
order's remaining amount, and preserves the zero-amount-implies-inactive
invariant (the cancelled order becomes inactive). -/
theorem cancelOrder_preserves (st : DexState) (sender : Address)
    (orderId : Nat) (st' : DexState)
    (h : cancelOrder st sender orderId = .ok st') :
    st'.orderIdCounter = st.orderIdCounter ∧
    (∀ i, (st'.orders i).amount ≤ (st.orders i).amount) ∧
    (OrdersInv st → OrdersInv st') := by
  unfold cancelOrder at h
  by_cases h1 : (st.orders orderId).trader = sender
  · by_cases h2 : (st.orders orderId).isActive = true
    · by_cases h3 : (st.orders orderId).isBuy = true
      · by_cases hp : (st.tradingPairs (st.orders orderId).baseToken
            (st.orders orderId).quoteToken).pricePrecision = 0
        · simp [h1, h2, h3, cdiv, hp] at h
        · by_cases hb : st.balances sender (st.orders orderId).quoteToken <
              (st.orders orderId).amount * (st.orders orderId).price /
                (st.tradingPairs (st.orders orderId).baseToken
                  (st.orders orderId).quoteToken).pricePrecision
          · simp [h1, h2, h3, cdiv, hp, csub, hb] at h
          · simp [h1, h2, h3, cdiv, hp, csub, hb] at h
            subst h
            refine ⟨rfl, ?_, ?_⟩
            · intro i
              by_cases hi : i = orderId
              · subst hi
                simp [setOrder]
              · simp [setOrder, hi]
            · intro hInv i
              by_cases hi : i = orderId
              · subst hi
                simp [setOrder]
              · simp only [setOrder, if_neg hi]
                exact hInv i
      · by_cases hb : st.balances sender (st.orders orderId).baseToken <
            (st.orders orderId).amount
        · simp [h1, h2, h3, csub, hb] at h
        · simp [h1, h2, h3, csub, hb] at h
          subst h
          refine ⟨rfl, ?_, ?_⟩
          · intro i
            by_cases hi : i = orderId
            · subst hi
              simp [setOrder]
            · simp [setOrder, hi]
          · intro hInv i
            by_cases hi : i = orderId
            · subst hi
              simp [setOrder]
            · simp only [setOrder, if_neg hi]
              exact hInv i
    · simp [h1, h2] at h
  · simp [h1] at h

/-- Inversion of a successful bind on `Except`. -/
theorem except_bind_ok {α β : Type} (x : Except DexError α)
    (f : α → Except DexError β) (r : β) (h : x >>= f = .ok r) :
    ∃ a, x = .ok a ∧ f a = .ok r := by
  cases x with
  | error e => simp at h
  | ok a => exact ⟨a, rfl, h⟩

/-- A successful `placeLimitOrder` (on a state whose active pairs demand
positive minimum order sizes) increments the order counter, never
increases the remaining amount of any previously created order, and
preserves the zero-amount-implies-inactive invariant. -/
theorem placeLimitOrder_preserves (st : DexState)
    (sender baseToken quoteToken amount price : Nat) (isBuy : Bool)
    (ts : Nat) (st' : DexState) (oid : Nat) (hmin : MinSizePos st)
    (h : placeLimitOrder st sender baseToken quoteToken amount price isBuy
      ts = .ok (st', oid)) :
    st.orderIdCounter ≤ st'.orderIdCounter ∧
    (∀ i, i < st.orderIdCounter →
      (st'.orders i).amount ≤ (st.orders i).amount) ∧
    (OrdersInv st → OrdersInv st') := by
  unfold placeLimitOrder at h
  by_cases hact : (st.tradingPairs baseToken quoteToken).isActive = false
  · simp [hact] at h
  · have hact' : (st.tradingPairs baseToken quoteToken).isActive = true := by
      revert hact
      cases (st.tradingPairs baseToken quoteToken).isActive <;> simp
    by_cases hsize : amount < (st.tradingPairs baseToken quoteToken).minOrderSize
    · simp [hact, hsize] at h
    · by_cases hprice : price = 0
      · simp [hact, hsize, hprice] at h
      · have hamt : 1 ≤ amount :=
          le_trans (hmin baseToken quoteToken hact') (Nat.le_of_not_lt hsize)
        have main : ∀ (st1 : DexState),
            st1.orderIdCounter = st.orderIdCounter + 1 →
            st1.orders = setOrder st.orders st.orderIdCounter
              { id := st.orderIdCounter, trader := sender,
                baseToken := baseToken, quoteToken := quoteToken,
                amount := amount, price := price, isBuy := isBuy,
                isActive := true, timestamp := ts } →
            ∀ st2, tryMatchOrders st1 baseToken quoteToken = .ok st2 →
            st.orderIdCounter ≤ st2.orderIdCounter ∧
            (∀ i, i < st.orderIdCounter →
              (st2.orders i).amount ≤ (st.orders i).amount) ∧
            (OrdersInv st → OrdersInv st2) := by
          intro st1 hcnt hords st2 htm
          obtain ⟨hc2, ham2, hinv2⟩ :=
            tryMatchOrders_preserves st1 baseToken quoteToken st2 htm
          refine ⟨by omega, ?_, ?_⟩
          · intro i hi
            have := ham2 i
            rw [hords] at this
            simp only [setOrder, if_neg (Nat.ne_of_lt hi)] at this
            exact this
          · intro hInv
            apply hinv2
            intro i
            rw [hords]
            simp only [setOrder]
            by_cases hi : i = st.orderIdCounter
            · rw [if_pos hi]
              intro hz
              have hz' : amount = 0 := hz
              exact absurd hz' (by omega)
            · rw [if_neg hi]
              exact hInv i
        cases isBuy
        · simp [hact, hsize, hprice] at h
          obtain ⟨st2, htm, hret⟩ := except_bind_ok _ _ _ h
          simp at hret
          obtain ⟨hst', _⟩ := hret
          subst hst'
          exact main _ rfl rfl st2 htm
        · by_cases hprec : (st.tradingPairs baseToken quoteToken).pricePrecision = 0
          · simp [hact, hsize, hprice, cdiv, hprec] at h
          · simp [hact, hsize, hprice, cdiv, hprec] at h
            obtain ⟨st2, htm, hret⟩ := except_bind_ok _ _ _ h
            simp at hret
            obtain ⟨hst', _⟩ := hret
            subst hst'
            exact main _ rfl rfl st2 htm

/-- A successful `placeMarketOrder` leaves the order store and counter
untouched. -/
theorem placeMarketOrder_orders (st : DexState) (sender b q a : Nat)
    (ib : Bool) (st' : DexState) (r : Nat)
    (h : placeMarketOrder st sender b q a ib = .ok (st', r)) :
    st'.orders = st.orders ∧ st'.orderIdCounter = st.orderIdCounter := by
  unfold placeMarketOrder at h
  by_cases h1 : (st.tradingPairs b q).isActive = false
  · simp [h1] at h
  · by_cases h2 : a < (st.tradingPairs b q).minOrderSize
    · simp [h1, h2] at h
    · cases ib
      · simp [h1, h2] at h
        exact executeMarketSell_orders st sender b q a st' r h
      · simp [h1, h2] at h
        exact executeMarketBuy_orders st sender b q a st' r h

/-- C8 (amended): provided every order is created with a positive amount
(equivalently, every active pair has minOrderSize at least 1 — the code
itself lets the owner register a pair with minOrderSize 0 and then
accepts an active zero-amount order), every external operation preserves
the invariant that an order with remaining amount 0 is inactive, never
increases the remaining amount of any previously created order, and never
decreases the order counter; moreover the matching scan only ever hands
active orders to `_executeMatch`, so an inactive order never participates
in a subsequent match. -/
theorem c8_amount_monotone_and_no_double_match :
    (∀ (st : DexState) (op : Op) (st' : DexState),
      OrdersInv st → MinSizePos st → applyOp st op = .ok st' →
      OrdersInv st' ∧ st.orderIdCounter ≤ st'.orderIdCounter ∧
      ∀ i, i < st.orderIdCounter →
        (st'.orders i).amount ≤ (st.orders i).amount) ∧
    (∀ (st : DexState) (base quote : Address),
      (scanOrders st base quote).bestBuyOrderId ≠ 0 →
      (scanOrders st base quote).bestSellOrderId ≠ 0 →
      (st.orders (scanOrders st base quote).bestBuyOrderId).isActive = true ∧
      (st.orders (scanOrders st base quote).bestSellOrderId).isActive =
        true) := by
  refine ⟨?_, fun st base quote hb hs => scan_candidates_active st base quote hb hs⟩
  intro st op st' hInv hmin h
  cases op with
  | addPair s b q m p =>
    simp only [applyOp] at h
    unfold addTradingPair at h
    by_cases h1 : s ≠ st.owner
    · simp [h1] at h
    · by_cases h2 : b = q
      · simp [h1, h2] at h
      · by_cases h3 : b = 0 ∨ q = 0
        · simp [h1, h2, h3] at h
        · simp [h1, h2, h3] at h
          subst h
          exact ⟨hInv, Nat.le_refl _, fun i _ => Nat.le_refl _⟩
  | limit s b q a p ib ts =>
    simp only [applyOp] at h
    cases hpl : placeLimitOrder st s b q a p ib ts with
    | error e =>
      rw [hpl] at h
      simp [Except.map] at h
    | ok pr =>
      obtain ⟨st2, oid⟩ := pr
      rw [hpl] at h
      simp [Except.map] at h
      subst h
      obtain ⟨hc, ham, hinv⟩ :=
        placeLimitOrder_preserves st s b q a p ib ts st2 oid hmin hpl
      exact ⟨hinv hInv, hc, ham⟩
  | market s b q a ib =>
    simp only [applyOp] at h
    cases hpm : placeMarketOrder st s b q a ib with
    | error e =>
      rw [hpm] at h
      simp [Except.map] at h
    | ok pr =>
      obtain ⟨st2, r⟩ := pr
      rw [hpm] at h
      simp [Except.map] at h
      subst h
      obtain ⟨ho, hc⟩ := placeMarketOrder_orders st s b q a ib st2 r hpm
      refine ⟨?_, Nat.le_of_eq hc.symm, ?_⟩
      · intro i
        rw [ho]
        exact hInv i
      · intro i _
        rw [ho]
  | cancel s oid =>
    simp only [applyOp] at h
    obtain ⟨hc, ham, hinv⟩ := cancelOrder_preserves st s oid st' h
    exact ⟨hinv hInv, Nat.le_of_eq hc.symm, fun i _ => ham i⟩
  | withdrawal s t a =>
    simp only [applyOp] at h
    unfold withdraw at h
    by_cases h1 : st.balances s t < a
    · simp [h1] at h
    · simp [h1] at h
      subst h
      exact ⟨hInv, Nat.le_refl _, fun i _ => Nat.le_refl _⟩

/-- C8 witness: registering a pair on the freshly deployed contract
succeeds and does not decrease the order counter. -/
theorem c8_witness :
    (initState 1).orderIdCounter ≤
      ((applyOp (initState 1) (Op.addPair 1 11 12 1 1)).toOption.getD
        (initState 1)).orderIdCounter :=
  (c8_amount_monotone_and_no_double_match.1 (initState 1)
    (Op.addPair 1 11 12 1 1)
    ((applyOp (initState 1) (Op.addPair 1 11 12 1 1)).toOption.getD
      (initState 1))
    (fun _ _ => rfl) (fun _ _ hb => Bool.noConfusion hb) rfl).2.1

end OrderBookDEX
